import Mathlib

/-!
Shallow embedding of the user-defined struct type subsystem of the
systemrdl-compiler (source file: src/systemrdl/rdltypes/user_struct.py).

A struct type descriptor corresponds to a Python class derived from
UserStruct: its classdict holds the flattened ordered member mapping
(field _members), the abstract flag (field _is_abstract), and, when
_set_parent_scope was called on that class, a _parent_scope entry.
A derived class created by define_new has no _parent_scope entry of its
own, so Python attribute lookup on the class falls through to the base
class; the embedding therefore propagates the effective _parent_scope
value of the base descriptor into the derived descriptor.

Member mappings (Python OrderedDict) are embedded as association lists
in insertion order.  Member types and member values are opaque (the
source never inspects them), so both are type parameters.
-/

namespace SystemRDL

/-- Modelled from the spec: the external declaration-scope node
(systemrdl.component.Component, with subclass Root marking the
compilation root scope).  This core consumes only a scope name, an
optional enclosing parent scope, and a test for the root scope. -/
inductive Component where
  | root : Component
  | node (parent_scope : Option Component) (scope_name : String) : Component

/-- Modelled from the spec: the recursive get_scope_path of the
scope handle — scopes nest the same way structs do: absent or root
parent gives the empty path, otherwise the own path of the parent is
extended with the separator and the scope name of the parent (the separator
is omitted when the recursive path is empty). -/
def Component.get_scope_path : Component → String → String
  | .root, _ => ""
  | .node none _, _ => ""
  | .node (some .root) _, _ => ""
  | .node (some (.node pp pn)) _, sep =>
      let parent_path := (Component.node pp pn).get_scope_path sep
      if parent_path ≠ "" then parent_path ++ sep ++ pn
      else pn

/-- Key list of an association list, in insertion order
(dict.keys()). -/
def keysOf {β : Type} (l : List (String × β)) : List String :=
  l.map Prod.fst

/-- One step of OrderedDict.update: store one key/value pair — an
existing key is overwritten in place, a new key is appended at the
end. -/
def odInsert {τ : Type} (base : List (String × τ)) (kv : String × τ) :
    List (String × τ) :=
  if base.any (fun p => p.1 == kv.1) then
    base.map (fun p => if p.1 == kv.1 then (p.1, kv.2) else p)
  else
    base ++ [kv]

/-- OrderedDict.update(other): entries of other stored one at a time in
iteration order. -/
def odUpdate {τ : Type} (base : List (String × τ)) :
    List (String × τ) → List (String × τ)
  | [] => base
  | kv :: rest => odUpdate (odInsert base kv) rest

/-- Python set equality of two key lists:
set(a) == set(b). -/
def pySetEq (a b : List String) : Bool :=
  a.all (fun k => b.contains k) && b.all (fun k => a.contains k)

/-- Error kinds of the subsystem (spec taxonomy; the source raises a
plain TypeError, ValueError or AttributeError respectively). -/
inductive StructError where
  /-- construct on an abstract descriptor
  (TypeError "Cannot create instance of an abstract struct type"). -/
  | abstractInstantiation : StructError
  /-- construct with a value key set differing from the member set
  (ValueError "Cannot map values to this struct"). -/
  | memberMismatch : StructError
  /-- define_new with keys overlapping the inherited member set
  (ValueError "members contains keys that overlap with parent"). -/
  | memberCollision : StructError
  /-- attribute read of a name that is not a stored member
  (AttributeError). -/
  | unknownMemberAccess : StructError
deriving DecidableEq

/-- A struct type descriptor: one Python class in the UserStruct
hierarchy.  _members is the flattened, ordered, transitively inherited
member mapping held in the classdict; _parent_scope is the effective
value of getattr(cls, "_parent_scope", None) under Python class
attribute lookup. -/
structure Descriptor (τ : Type) where
  name : String
  _members : List (String × τ)
  _is_abstract : Bool
  _parent_scope : Option Component

/-- The predefined abstract root class UserStruct: empty member
mapping, abstract, class attribute _parent_scope = None. -/
def UserStructRoot {τ : Type} : Descriptor τ :=
  { name := "UserStruct", _members := [], _is_abstract := true,
    _parent_scope := none }

/-- UserStruct.define_new(cls, name, members, is_abstract): copy the
member dict of the base, fail on any key overlap between the copy and the
new members, otherwise update the copy with the new members and build
the new class.  The classdict sets only _members and _is_abstract, so
the _parent_scope lookup of the new class falls through to the base. -/
def define_new {τ : Type} (cls : Descriptor τ) (name : String)
    (members : List (String × τ)) (is_abstract : Bool) :
    Except StructError (Descriptor τ) :=
  let m := cls._members
  if (keysOf m).any (fun k => (keysOf members).contains k) then
    .error .memberCollision
  else
    .ok { name := name, _members := odUpdate m members,
          _is_abstract := is_abstract,
          _parent_scope := cls._parent_scope }

/-- UserStruct._set_parent_scope(cls, scope): stores the scope in the
own dict of the class, shadowing any inherited entry. -/
def set_parent_scope {τ : Type} (cls : Descriptor τ) (scope : Component) :
    Descriptor τ :=
  { cls with _parent_scope := some scope }

/-- UserStruct.get_parent_scope(cls) =
getattr(cls, "_parent_scope", None): the effective class attribute. -/
def Descriptor.get_parent_scope {τ : Type} (cls : Descriptor τ) :
    Option Component :=
  cls._parent_scope

/-- The declared member names of the descriptor in declaration order,
inherited first (cls._members.keys()). -/
def Descriptor.member_names {τ : Type} (cls : Descriptor τ) : List String :=
  keysOf cls._members

/-- UserStruct.get_scope_path(cls, scope_separator): empty when no
parent scope is set or the parent scope is the root scope; otherwise
the own recursive path of the parent scope, extended with the separator
and the scope name of the parent when that recursive path is non-empty. -/
def Descriptor.get_scope_path {τ : Type} (cls : Descriptor τ)
    (scope_separator : String) : String :=
  match cls._parent_scope with
  | none => ""
  | some .root => ""
  | some (.node pp pn) =>
      let parent_path := (Component.node pp pn).get_scope_path scope_separator
      if parent_path ≠ "" then parent_path ++ scope_separator ++ pn
      else pn

/-- A constructed struct value: the class of the instance together with the
stored _values dict. -/
structure StructValue (τ α : Type) where
  descriptor : Descriptor τ
  _values : List (String × α)

/-- UserStruct.__init__(self, values): reject abstract classes, then
reject any values dict whose key set differs from the member key set
(set(values.keys()) != set(self._members.keys())); otherwise store the
values. -/
def construct {τ α : Type} (cls : Descriptor τ)
    (values : List (String × α)) : Except StructError (StructValue τ α) :=
  if cls._is_abstract then
    .error .abstractInstantiation
  else if pySetEq (keysOf values) (keysOf cls._members) = false then
    .error .memberMismatch
  else
    .ok { descriptor := cls, _values := values }

/-- UserStruct.__getattr__(self, name): the name "__setstate__" is
rejected before the stored values are consulted; otherwise the stored
value is returned when the name is a key of _values, and an
AttributeError is raised when it is not. -/
def getattr {τ α : Type} (self : StructValue τ α) (name : String) :
    Except StructError α :=
  if name == "__setstate__" then
    .error .unknownMemberAccess
  else
    match self._values.lookup name with
    | some v => .ok v
    | none => .error .unknownMemberAccess

/-! ### Heap-level model of define_new

The Python OrderedDict is a mutable object; descriptors hold references
to dict objects.  To reason about mutation of the base descriptor, the
member dicts live in an explicit heap (a list of dict objects indexed
by position) and a descriptor holds an index.  define_new makes a
fresh copy of the dict of the base (OrderedDict(cls._members)), updates
the copy, and allocates the copy as a new heap object; the dict of the base
object is never written. -/

/-- Heap of OrderedDict objects. -/
abbrev MemHeap (τ : Type) : Type := List (List (String × τ))

/-- A descriptor whose member dict is a reference into a MemHeap. -/
structure HDescriptor where
  name : String
  membersRef : Nat
  _is_abstract : Bool
  _parent_scope : Option Component

/-- UserStruct.define_new over the heap model: read the dict of the base,
copy it, check the overlap, update the copy and allocate it as a new
heap object.  No existing heap object is written. -/
def define_new_heap {τ : Type} (h : MemHeap τ) (cls : HDescriptor)
    (name : String) (members : List (String × τ)) (is_abstract : Bool) :
    MemHeap τ × Except StructError HDescriptor :=
  let m := h.getD cls.membersRef []
  if (keysOf m).any (fun k => (keysOf members).contains k) then
    (h, .error .memberCollision)
  else
    (h ++ [odUpdate m members],
     .ok { name := name, membersRef := h.length,
           _is_abstract := is_abstract,
           _parent_scope := cls._parent_scope })

/-! ### Model of is_user_struct

is_user_struct(t) receives an arbitrary Python object: a class (in or
outside the UserStruct hierarchy), a constructed struct value, or any
other non-class value. -/

/-- A Python class object: the UserStruct base class, a class created
by type(name, (base,), classdict) in define_new, or a class unrelated
to the UserStruct hierarchy. -/
inductive PyClass where
  | userStructCls : PyClass
  | subclass (base : PyClass) (name : String) : PyClass
  | foreign (name : String) : PyClass
deriving DecidableEq

/-- issubclass(t, UserStruct): walk the single-inheritance chain. -/
def issubclass_UserStruct : PyClass → Bool
  | .userStructCls => true
  | .subclass base _ => issubclass_UserStruct base
  | .foreign _ => false

/-- An arbitrary Python object as passed to is_user_struct: a class, a
constructed struct value instance, or some other non-class value. -/
inductive PyObj (τ α : Type) where
  | ofClass : PyClass → PyObj τ α
  | ofInstance : StructValue τ α → PyObj τ α
  | otherValue : PyObj τ α

/-- inspect.isclass(t). -/
def isclass {τ α : Type} : PyObj τ α → Bool
  | .ofClass _ => true
  | .ofInstance _ => false
  | .otherValue => false

/-- is_user_struct(t) = inspect.isclass(t) and issubclass(t,
UserStruct); the conjunction short-circuits on non-classes. -/
def is_user_struct {τ α : Type} : PyObj τ α → Bool
  | .ofClass c => issubclass_UserStruct c
  | .ofInstance _ => false
  | .otherValue => false

/-- The claim-side reading of the is_user_struct contract: the class
is UserStruct itself or transitively derived from it. -/
inductive DerivesFromUserStruct : PyClass → Prop where
  | base : DerivesFromUserStruct .userStructCls
  | step (b : PyClass) (n : String) :
      DerivesFromUserStruct b → DerivesFromUserStruct (.subclass b n)

/-! ### Concrete sample instances

Small concrete descriptors, values, scopes and heaps used by the
closed instance checks below. -/

/-- A sample non-root scope named sc, declared at top level. -/
def scopeSc : Component := Component.node none "sc"

/-- The UserStruct root class after _set_parent_scope(scopeSc). -/
def rootWithScope : Descriptor Nat := set_parent_scope UserStructRoot scopeSc

/-- The memberless concrete descriptor derived from rootWithScope. -/
def derivedEmpty : Descriptor Nat :=
  { name := "Derived", _members := [], _is_abstract := false,
    _parent_scope := some scopeSc }

/-- A sample abstract one-member base descriptor. -/
def baseX : Descriptor Nat :=
  { name := "Base", _members := [("x", 0)], _is_abstract := true,
    _parent_scope := none }

/-- The concrete extension of baseX by members y and z. -/
def derivedXYZ : Descriptor Nat :=
  { name := "Derived", _members := [("x", 0), ("y", 1), ("z", 2)],
    _is_abstract := false, _parent_scope := none }

/-- A sample concrete two-member Point descriptor. -/
def pointD : Descriptor Nat :=
  { name := "Point", _members := [("x", 0), ("y", 1)],
    _is_abstract := false, _parent_scope := none }

/-- A constructed Point value with x = 3 and y = 4. -/
def pointV : StructValue Nat Nat :=
  { descriptor := pointD, _values := [("x", 3), ("y", 4)] }

/-- A descriptor declaring the reserved attribute name as its only
member. -/
def setstateD : Descriptor Nat :=
  { name := "S", _members := [("__setstate__", 0)],
    _is_abstract := false, _parent_scope := none }

/-- A constructed value of setstateD. -/
def setstateV : StructValue Nat Nat :=
  { descriptor := setstateD, _values := [("__setstate__", 7)] }

/-- A two-level scope chain: scope b nested in scope a at the root. -/
def scopeAB : Component :=
  Component.node (some (Component.node (some Component.root) "a")) "b"

/-- A sample one-dict heap for the heap-level model. -/
def heap1 : MemHeap Nat := [[("x", 0)]]

/-- The heap-level base descriptor referencing the dict of heap1. -/
def hBase : HDescriptor :=
  { name := "Base", membersRef := 0, _is_abstract := true,
    _parent_scope := none }

/-! ### Helper lemmas -/

/-- Python set equality of key lists coincides with pointwise mutual
membership. -/
theorem pySetEq_iff {a b : List String} :
    pySetEq a b = true ↔ ∀ k, k ∈ a ↔ k ∈ b := by
  unfold pySetEq
  rw [Bool.and_eq_true, List.all_eq_true, List.all_eq_true]
  constructor
  · rintro ⟨h1, h2⟩ k
    constructor
    · intro hk
      simpa using h1 k hk
    · intro hk
      simpa using h2 k hk
  · intro h
    constructor
    · intro k hk
      simpa using (h k).mp hk
    · intro k hk
      simpa using (h k).mpr hk

/-- The collision check of define_new is true exactly when some new
key is already an inherited member name. -/
theorem collision_check_iff {τ : Type} (B : Descriptor τ)
    (M : List (String × τ)) :
    (keysOf B._members).any (fun k => (keysOf M).contains k) = true ↔
      ∃ k ∈ keysOf M, k ∈ keysOf B._members := by
  rw [List.any_eq_true]
  constructor
  · rintro ⟨x, hx, hc⟩
    exact ⟨x, by simpa using hc, hx⟩
  · rintro ⟨k, hkM, hkB⟩
    exact ⟨k, hkB, by simpa using hkM⟩

/-- A key present in the key list has a stored value. -/
theorem lookup_of_mem_keys {α : Type} :
    ∀ (l : List (String × α)) (k : String), k ∈ keysOf l →
      ∃ v, l.lookup k = some v := by
  intro l
  induction l with
  | nil =>
      intro k hk
      simp [keysOf] at hk
  | cons p rest ih =>
      intro k hk
      by_cases hkp : k = p.1
      · exact ⟨p.2, by simp [List.lookup, hkp]⟩
      · have hk' : k ∈ keysOf rest := by
          simp only [keysOf, List.map_cons, List.mem_cons] at hk
          exact hk.resolve_left hkp
        obtain ⟨v, hv⟩ := ih k hk'
        refine ⟨v, ?_⟩
        have hbeq : (k == p.1) = false := by simpa using hkp
        simp [List.lookup, hbeq, hv]

/-- A key absent from the key list has no stored value. -/
theorem lookup_eq_none_of_not_mem_keys {α : Type} :
    ∀ (l : List (String × α)) (k : String), k ∉ keysOf l →
      l.lookup k = none := by
  intro l
  induction l with
  | nil =>
      intro k _
      simp [List.lookup]
  | cons p rest ih =>
      intro k hk
      have hkp : k ≠ p.1 := by
        intro he
        exact hk (by simp [keysOf, he])
      have hk' : k ∉ keysOf rest := by
        intro hm
        exact hk (by simp [keysOf] at hm ⊢; exact Or.inr hm)
      have hbeq : (k == p.1) = false := by simpa using hkp
      simp [List.lookup, hbeq, ih k hk']

/-- OrderedDict.update appends when the stored keys are fresh and
pairwise distinct. -/
theorem odUpdate_eq_append {τ : Type} :
    ∀ (M base : List (String × τ)), (keysOf M).Nodup →
      (∀ k ∈ keysOf M, k ∉ keysOf base) →
      odUpdate base M = base ++ M := by
  intro M
  induction M with
  | nil =>
      intro base _ _
      simp [odUpdate]
  | cons kv rest ih =>
      intro base hnd hdisj
      have hkeys : keysOf (kv :: rest) = kv.1 :: keysOf rest := rfl
      rw [hkeys] at hnd hdisj
      have hk : kv.1 ∉ keysOf base := hdisj kv.1 (List.mem_cons_self _ _)
      have hany : base.any (fun p => p.1 == kv.1) = false := by
        rw [List.any_eq_false]
        intro p hp
        simp only [beq_iff_eq]
        intro he
        exact hk (he ▸ List.mem_map_of_mem Prod.fst hp)
      have hins : odInsert base kv = base ++ [kv] := by
        unfold odInsert
        rw [hany]
        simp
      have hnd' : (keysOf rest).Nodup := (List.nodup_cons.mp hnd).2
      have hhd : kv.1 ∉ keysOf rest := (List.nodup_cons.mp hnd).1
      have hdisj' : ∀ k ∈ keysOf rest, k ∉ keysOf (base ++ [kv]) := by
        intro k hkR
        have h1 : k ∉ keysOf base := hdisj k (List.mem_cons_of_mem _ hkR)
        have h2 : k ≠ kv.1 := fun he => hhd (he ▸ hkR)
        simp only [keysOf, List.map_append, List.mem_append]
        rintro (hb | hc)
        · exact h1 hb
        · simp at hc
          exact h2 hc
      calc odUpdate base (kv :: rest)
          = odUpdate (odInsert base kv) rest := rfl
        _ = odUpdate (base ++ [kv]) rest := by rw [hins]
        _ = (base ++ [kv]) ++ rest := ih (base ++ [kv]) hnd' hdisj'
        _ = base ++ (kv :: rest) := by simp

/-- Inversion of a successful define_new: the collision check was
false and the result is the freshly built class. -/
theorem define_new_eq_ok {τ : Type} {B : Descriptor τ} {nm : String}
    {M : List (String × τ)} {ab : Bool} {D : Descriptor τ}
    (h : define_new B nm M ab = .ok D) :
    (keysOf B._members).any (fun k => (keysOf M).contains k) = false ∧
    D = { name := nm, _members := odUpdate B._members M,
          _is_abstract := ab, _parent_scope := B._parent_scope } := by
  simp only [define_new] at h
  split at h
  · exact absurd h (by simp)
  · rename_i hc
    exact ⟨by simpa using hc, (Except.ok.inj h).symm⟩

/-- Inversion of a successful construct: the class is concrete, the
key sets agreed and the value stores the class and the values dict. -/
theorem construct_eq_ok {τ α : Type} {D : Descriptor τ}
    {V : List (String × α)} {s : StructValue τ α}
    (h : construct D V = .ok s) :
    D._is_abstract = false ∧
    pySetEq (keysOf V) (keysOf D._members) = true ∧
    s = { descriptor := D, _values := V } := by
  unfold construct at h
  split at h
  · exact absurd h (by simp)
  · split at h
    · exact absurd h (by simp)
    · rename_i h1 h2
      exact ⟨by simpa using h1, by simpa using h2, (Except.ok.inj h).symm⟩

/-- The issubclass walk recognises exactly the transitive derivation
relation. -/
theorem issubclass_iff (c : PyClass) :
    issubclass_UserStruct c = true ↔ DerivesFromUserStruct c := by
  induction c with
  | userStructCls =>
      simp only [issubclass_UserStruct]
      exact ⟨fun _ => .base, fun _ => by trivial⟩
  | subclass b n ih =>
      simp only [issubclass_UserStruct]
      constructor
      · intro hb
        exact .step b n (ih.mp hb)
      · intro hd
        cases hd with
        | step _ _ hb => exact ih.mpr hb
  | foreign n =>
      simp only [issubclass_UserStruct]
      constructor
      · intro hfalse
        exact absurd hfalse (by simp)
      · intro hd
        cases hd

/-! ### Claim theorems -/

/-- C1 counterexample: the claim predicts that a descriptor freshly
derived from a base with a parent scope set has no parent scope; in
the code the classdict built by define_new omits _parent_scope, so the
class-attribute lookup of the derived class finds the entry of the
base, and get_parent_scope on the fresh descriptor returns that scope,
not absence. -/
theorem C1_counterexample :
    define_new rootWithScope "Derived" [] false = Except.ok derivedEmpty ∧
    derivedEmpty.get_parent_scope ≠ none :=
  ⟨rfl, by simp [derivedEmpty, Descriptor.get_parent_scope]⟩

/-- C1 (amended): get_parent_scope on a descriptor freshly produced by
a successful define_new returns exactly the effective parent scope of
the base descriptor at derivation time — absence when the base has
none set, and the scope of the base when one was set on the base. -/
theorem C1_derived_parent_scope {τ : Type} (B : Descriptor τ)
    (nm : String) (M : List (String × τ)) (ab : Bool) (D : Descriptor τ)
    (h : define_new B nm M ab = .ok D) :
    D.get_parent_scope = B.get_parent_scope := by
  obtain ⟨-, hD⟩ := define_new_eq_ok h
  subst hD
  rfl

/-- Witness for C1_derived_parent_scope at a concrete derivation. -/
theorem C1_derived_parent_scope_witness :
    define_new rootWithScope "Derived" [] false = Except.ok derivedEmpty ∧
    derivedEmpty.get_parent_scope = rootWithScope.get_parent_scope :=
  ⟨rfl, C1_derived_parent_scope rootWithScope "Derived" [] false
    derivedEmpty rfl⟩

/-- C2: a descriptor produced by a successful define_new has as member
mapping exactly the inherited members of the base followed by the new
members, so its member names list the inherited names first (in base
order) and then the new names (in supplied order). -/
theorem C2_inheritance_completeness {τ : Type} (B : Descriptor τ)
    (nm : String) (M : List (String × τ)) (ab : Bool) (D : Descriptor τ)
    (hM : (keysOf M).Nodup) (h : define_new B nm M ab = .ok D) :
    D._members = B._members ++ M ∧
    D.member_names = B.member_names ++ keysOf M := by
  obtain ⟨hc, hD⟩ := define_new_eq_ok h
  have hdisj : ∀ k ∈ keysOf M, k ∉ keysOf B._members := by
    intro k hkM hkB
    have hany : (keysOf B._members).any
        (fun k => (keysOf M).contains k) = true :=
      (collision_check_iff B M).mpr ⟨k, hkM, hkB⟩
    rw [hc] at hany
    exact absurd hany (by simp)
  have hupd : odUpdate B._members M = B._members ++ M :=
    odUpdate_eq_append M B._members hM hdisj
  subst hD
  refine ⟨hupd, ?_⟩
  simp [Descriptor.member_names, keysOf, hupd]

/-- Witness for C2_inheritance_completeness: deriving a concrete
three-member struct from a one-member base. -/
theorem C2_inheritance_completeness_witness :
    (keysOf [("y", (1 : Nat)), ("z", 2)]).Nodup ∧
    define_new baseX "Derived" [("y", 1), ("z", 2)] false
      = Except.ok derivedXYZ ∧
    derivedXYZ._members = baseX._members ++ [("y", 1), ("z", 2)] ∧
    derivedXYZ.member_names
      = baseX.member_names ++ keysOf [("y", (1 : Nat)), ("z", 2)] := by
  refine ⟨by decide, rfl, ?_, ?_⟩
  · exact (C2_inheritance_completeness baseX "Derived"
      [("y", 1), ("z", 2)] false derivedXYZ (by decide) rfl).1
  · exact (C2_inheritance_completeness baseX "Derived"
      [("y", 1), ("z", 2)] false derivedXYZ (by decide) rfl).2

/-- C3: define_new fails with the member-collision error exactly when
some key of the new member map is already in the full flattened
inherited member-name set of the base (the classdict _members of every
descriptor is that flattened transitive set), and it succeeds exactly
when no key is. -/
theorem C3_collision_detection {τ : Type} (B : Descriptor τ)
    (nm : String) (M : List (String × τ)) (ab : Bool) :
    (define_new B nm M ab = .error .memberCollision ↔
       ∃ k ∈ keysOf M, k ∈ keysOf B._members) ∧
    ((∃ D, define_new B nm M ab = .ok D) ↔
       ¬ ∃ k ∈ keysOf M, k ∈ keysOf B._members) := by
  have hiff := collision_check_iff B M
  by_cases hc : (keysOf B._members).any
      (fun k => (keysOf M).contains k) = true
  · have hdef : define_new B nm M ab = .error .memberCollision := by
      simp only [define_new]
      rw [hc]
      simp
    refine ⟨⟨fun _ => hiff.mp hc, fun _ => hdef⟩, ?_, ?_⟩
    · rintro ⟨D, hD⟩
      rw [hdef] at hD
      exact absurd hD (by simp)
    · intro hn
      exact absurd (hiff.mp hc) hn
  · have hc' : (keysOf B._members).any
        (fun k => (keysOf M).contains k) = false := by simpa using hc
    have hdef : define_new B nm M ab
        = .ok { name := nm, _members := odUpdate B._members M,
                _is_abstract := ab, _parent_scope := B._parent_scope } := by
      simp only [define_new]
      rw [hc']
      simp
    have hnP : ¬ ∃ k ∈ keysOf M, k ∈ keysOf B._members :=
      fun hp => hc (hiff.mpr hp)
    refine ⟨⟨?_, fun hp => absurd hp hnP⟩, fun _ => hnP, fun _ => ⟨_, hdef⟩⟩
    intro h
    rw [hdef] at h
    exact absurd h (by simp)

/-- C4: for a concrete (non-abstract) descriptor, construct succeeds
exactly when the key set of the supplied values equals the member-name
set as sets, it fails with the single merged mismatch error otherwise,
and every successfully constructed value stores a values dict whose
key set equals the member key set of its descriptor. -/
theorem C4_exact_membership {τ α : Type} (D : Descriptor τ)
    (V : List (String × α)) (h : D._is_abstract = false) :
    ((∃ s, construct D V = .ok s) ↔
       (∀ k, k ∈ keysOf V ↔ k ∈ keysOf D._members)) ∧
    (construct D V = .error .memberMismatch ↔
       ¬ (∀ k, k ∈ keysOf V ↔ k ∈ keysOf D._members)) ∧
    (∀ s, construct D V = .ok s →
       ∀ k, k ∈ keysOf s._values ↔ k ∈ keysOf s.descriptor._members) := by
  by_cases hq : pySetEq (keysOf V) (keysOf D._members) = true
  · have hs := pySetEq_iff.mp hq
    have hok : construct D V = .ok { descriptor := D, _values := V } := by
      simp only [construct]
      rw [h, hq]
      simp
    refine ⟨⟨fun _ => hs, fun _ => ⟨_, hok⟩⟩,
      ⟨fun hcon => ?_, fun hn => absurd hs hn⟩, ?_⟩
    · rw [hok] at hcon
      exact absurd hcon (by simp)
    · intro s hoks
      obtain ⟨-, -, hsv⟩ := construct_eq_ok hoks
      subst hsv
      exact hs
  · have hq' : pySetEq (keysOf V) (keysOf D._members) = false := by
      simpa using hq
    have hns : ¬ (∀ k, k ∈ keysOf V ↔ k ∈ keysOf D._members) :=
      fun hs => hq (pySetEq_iff.mpr hs)
    have herr : construct D V = .error .memberMismatch := by
      simp only [construct]
      rw [h, hq']
      simp
    refine ⟨⟨?_, fun hs => absurd hs hns⟩,
      ⟨fun _ => hns, fun _ => herr⟩, ?_⟩
    · rintro ⟨s, hok⟩
      rw [herr] at hok
      exact absurd hok (by simp)
    · intro s hok
      rw [herr] at hok
      exact absurd hok (by simp)

/-- Witness for C4_exact_membership: the concrete Point descriptor and
a complete values dict supplied in a different key order. -/
theorem C4_exact_membership_witness :
    pointD._is_abstract = false ∧
    (((∃ s, construct pointD [("y", (4 : Nat)), ("x", 3)] = .ok s) ↔
        (∀ k, k ∈ keysOf [("y", (4 : Nat)), ("x", 3)] ↔
           k ∈ keysOf pointD._members)) ∧
      (construct pointD [("y", (4 : Nat)), ("x", 3)]
          = .error .memberMismatch ↔
        ¬ (∀ k, k ∈ keysOf [("y", (4 : Nat)), ("x", 3)] ↔
           k ∈ keysOf pointD._members)) ∧
      (∀ s, construct pointD [("y", (4 : Nat)), ("x", 3)] = .ok s →
        ∀ k, k ∈ keysOf s._values ↔ k ∈ keysOf s.descriptor._members)) :=
  ⟨rfl, C4_exact_membership pointD [("y", (4 : Nat)), ("x", 3)] rfl⟩

/-- C5: construct on any abstract descriptor fails with the
abstract-instantiation error whatever the supplied values are. -/
theorem C5_abstract_guard {τ α : Type} (cls : Descriptor τ)
    (V : List (String × α)) (h : cls._is_abstract = true) :
    construct cls V = .error .abstractInstantiation := by
  simp [construct, h]

/-- Witness for C5_abstract_guard: the abstract UserStruct root with a
non-empty values dict. -/
theorem C5_abstract_guard_witness :
    (UserStructRoot : Descriptor Nat)._is_abstract = true ∧
    construct (UserStructRoot : Descriptor Nat) [("x", (1 : Nat))]
      = Except.error StructError.abstractInstantiation :=
  ⟨rfl, C5_abstract_guard UserStructRoot [("x", (1 : Nat))] rfl⟩

/-- C6 counterexample: the claim as stated is false for the member
name "__setstate__": a descriptor may declare it, construct then
accepts a values dict containing it, yet the attribute read rejects it
before consulting the stored values, instead of returning the stored
value. -/
theorem C6_counterexample :
    construct setstateD [("__setstate__", (7 : Nat))]
      = Except.ok setstateV ∧
    "__setstate__" ∈ setstateD.member_names ∧
    getattr setstateV "__setstate__"
      = Except.error StructError.unknownMemberAccess :=
  ⟨rfl, by simp [setstateD, Descriptor.member_names, keysOf], rfl⟩

/-- C6 (amended): on a successfully constructed value, reading any
declared member name other than the reserved name "__setstate__"
returns exactly the supplied value for that name, and reading any name
not among the declared member names fails with the
unknown-member-access error. -/
theorem C6_member_read {τ α : Type} (D : Descriptor τ)
    (V : List (String × α)) (s : StructValue τ α)
    (h : construct D V = .ok s) (name : String) :
    (name ≠ "__setstate__" → name ∈ keysOf D._members →
       ∃ v, V.lookup name = some v ∧ getattr s name = .ok v) ∧
    (name ∉ keysOf D._members →
       getattr s name = .error .unknownMemberAccess) := by
  obtain ⟨-, hq, hs⟩ := construct_eq_ok h
  have hsetEq := pySetEq_iff.mp hq
  subst hs
  constructor
  · intro hne hmem
    have hmemV : name ∈ keysOf V := (hsetEq name).mpr hmem
    obtain ⟨v, hv⟩ := lookup_of_mem_keys V name hmemV
    refine ⟨v, hv, ?_⟩
    have hbeq : (name == "__setstate__") = false := by simpa using hne
    simp [getattr, hbeq, hv]
  · intro hmem
    by_cases hne : name = "__setstate__"
    · simp [getattr, hne]
    · have hV : name ∉ keysOf V := fun hk => hmem ((hsetEq name).mp hk)
      have hnone := lookup_eq_none_of_not_mem_keys V name hV
      have hbeq : (name == "__setstate__") = false := by simpa using hne
      simp [getattr, hbeq, hnone]

/-- Witness for C6_member_read: the concrete Point value read at the
member name x. -/
theorem C6_member_read_witness :
    construct pointD [("x", (3 : Nat)), ("y", 4)] = Except.ok pointV ∧
    (("x" ≠ "__setstate__" → "x" ∈ keysOf pointD._members →
        ∃ v, ([("x", (3 : Nat)), ("y", 4)]).lookup "x" = some v ∧
          getattr pointV "x" = .ok v) ∧
      ("x" ∉ keysOf pointD._members →
        getattr pointV "x" = .error .unknownMemberAccess)) :=
  ⟨rfl, C6_member_read pointD [("x", (3 : Nat)), ("y", 4)] pointV rfl "x"⟩

/-- C7: get_scope_path is empty when no parent scope is set or the
parent scope is the root scope; a descriptor whose immediate parent is
a scope named b nested in a scope named a (itself at the root) yields
a::b with the default separator and a#b with the separator #. -/
theorem C7_scope_path {τ : Type} (nm : String) (mem : List (String × τ))
    (ab : Bool) (sep : String) :
    (Descriptor.mk nm mem ab none).get_scope_path sep = "" ∧
    (Descriptor.mk nm mem ab (some Component.root)).get_scope_path sep
      = "" ∧
    (Descriptor.mk nm mem ab (some scopeAB)).get_scope_path "::"
      = "a::b" ∧
    (Descriptor.mk nm mem ab (some scopeAB)).get_scope_path "#"
      = "a#b" :=
  ⟨rfl, rfl, rfl, rfl⟩

/-- C8: define_new never mutates the base descriptor: over the
heap-of-dicts model every already allocated member dict — in
particular the one of the base — is unchanged by a derivation, whether
it succeeds or fails; the abstract flag and parent scope of the base
are plain fields that define_new only reads. -/
theorem C8_no_base_mutation {τ : Type} (h : MemHeap τ)
    (cls : HDescriptor) (nm : String) (M : List (String × τ)) (ab : Bool)
    (r : Nat) (hr : r < h.length) :
    ((define_new_heap h cls nm M ab).1).getD r [] = h.getD r [] := by
  simp only [define_new_heap]
  split
  · rfl
  · exact List.getD_append _ _ _ _ hr

/-- Witness for C8_no_base_mutation: a one-dict heap with a successful
derivation from the descriptor referencing that dict. -/
theorem C8_no_base_mutation_witness :
    (0 : Nat) < heap1.length ∧
    ((define_new_heap heap1 hBase "Derived" [("y", 1)] false).1).getD 0 []
      = heap1.getD 0 [] :=
  ⟨by decide, C8_no_base_mutation heap1 hBase "Derived" [("y", 1)] false 0
    (by decide)⟩

/-- C9: on every struct value the attribute read of the exact name
"__setstate__" fails with the attribute-not-found error before the
stored values dict is consulted, whatever that dict contains. -/
theorem C9_setstate_guard {τ α : Type} (s : StructValue τ α) :
    getattr s "__setstate__" = .error .unknownMemberAccess := by
  simp [getattr]

/-- C10: is_user_struct is true exactly on class objects that are
UserStruct itself or transitively derived from it; it is false on
every constructed struct value instance and on every non-class
value. -/
theorem C10_is_user_struct {τ α : Type} (t : PyObj τ α) :
    (is_user_struct t = true ↔
       ∃ c, t = PyObj.ofClass c ∧ DerivesFromUserStruct c) ∧
    (∀ s : StructValue τ α, is_user_struct (PyObj.ofInstance s) = false) ∧
    is_user_struct (PyObj.otherValue : PyObj τ α) = false := by
  refine ⟨?_, fun s => rfl, rfl⟩
  cases t with
  | ofClass c =>
      simp only [is_user_struct]
      constructor
      · intro hc
        exact ⟨c, rfl, (issubclass_iff c).mp hc⟩
      · rintro ⟨c2, hc2, hd⟩
        injection hc2 with he
        subst he
        exact (issubclass_iff _).mpr hd
  | ofInstance s =>
      simp only [is_user_struct]
      constructor
      · intro hfalse
        exact absurd hfalse (by simp)
      · rintro ⟨c, hc, -⟩
        cases hc
  | otherValue =>
      simp only [is_user_struct]
      constructor
      · intro hfalse
        exact absurd hfalse (by simp)
      · rintro ⟨c, hc, -⟩
        cases hc

end SystemRDL
